import Mathlib

/-!
Verification of the pathfinder RPC subscription layer.

The source files embedded here are
`crates/rpc/src/method/subscribe_new_heads.rs` (the new-heads subscription
flow: `subscription_name`, `catch_up`, `subscribe`) and
`crates/rpc/src/method/get_block_with_tx_hashes.rs` (the block query and its
serializer).  The generic reconciliation driver, connection multiplexer and
subscription registry live outside these files; where a property needs them
they are modelled from the specification, and those definitions say so in
their doc comments.
-/

namespace Pathfinder

/-- A block header (`pathfinder_common::BlockHeader`); only the fields the
embedded code touches are kept.  `number` is the sequence number of the
event stream. -/
structure BlockHeader where
  hash : Nat
  number : Nat
  parent_hash : Nat
  timestamp : Nat
  deriving DecidableEq

/-- `Message(Arc<BlockHeader>)` from `subscribe_new_heads.rs`: the
notification payload wrapping a shared block header. -/
structure Message where
  header : BlockHeader
  deriving DecidableEq

/-- `SubscribeNewHeads::subscription_name`. -/
def subscription_name : String := "starknet_subscriptionNewHeads"

/-- The RPC error type as used by `catch_up`: every storage failure is mapped
into `RpcError::InternalError`, the realisation of the spec's
`HistoryUnavailable` taxonomy entry. -/
inductive RpcError where
  | InternalError (msg : String)
  deriving DecidableEq

/-- The storage handle as `catch_up` uses it: `storage.connection()`, then
`conn.transaction()`, then `db.block_range(from, hi)`, each step fallible. -/
structure StorageModel where
  connection : Except String Unit
  transaction : Except String Unit
  block_range : Nat → Nat → Except String (List BlockHeader)

/-- `SubscribeNewHeads::catch_up`: opens a connection and a transaction,
reads `block_range(from, hi)`, maps every failure into
`RpcError::InternalError`, and on success pairs each returned header with
its own block number. -/
def catch_up (st : StorageModel) (from_ to_ : Nat) :
    Except RpcError (List (Message × Nat)) :=
  match st.connection with
  | .error e => .error (.InternalError e)
  | .ok _ =>
    match st.transaction with
    | .error e => .error (.InternalError e)
    | .ok _ =>
      match st.block_range from_ to_ with
      | .error e => .error (.InternalError e)
      | .ok headers => .ok (headers.map fun h => (Message.mk h, h.number))

/-- `SubscribeNewHeads::subscribe`: the live loop.  The receive trace lists
the outcomes of `rx.recv().await` (`some h` for `Ok(header)`, `none` for a
receive error such as lagging; a cancelled task simply ends the trace).
`cap` is how many sends the outbound receiver still accepts before
`tx.send` fails.  The loop forwards each received header paired with its
number and breaks at the first receive error or the first failed send. -/
def subscribe : List (Option BlockHeader) → Nat → List (Message × Nat)
  | [], _ => []
  | none :: _, _ => []
  | some _ :: _, 0 => []
  | some h :: rest, Nat.succ cap => (Message.mk h, h.number) :: subscribe rest cap

/-- The headers successfully received from the bus before the first receive
error (the `Ok` run at the head of the receive trace). -/
def receivedOks : List (Option BlockHeader) → List BlockHeader
  | [] => []
  | none :: _ => []
  | some h :: rest => h :: receivedOks rest

theorem subscribe_eq_take_map (recvs : List (Option BlockHeader)) (cap : Nat) :
    subscribe recvs cap =
      ((receivedOks recvs).take cap).map (fun h => (Message.mk h, h.number)) := by
  induction recvs generalizing cap with
  | nil => simp [subscribe, receivedOks]
  | cons o rest ih =>
    cases o with
    | none => simp [subscribe, receivedOks]
    | some h =>
      cases cap with
      | zero => simp [subscribe, receivedOks]
      | succ cap => simp [subscribe, receivedOks, ih]

theorem catch_up_ok (st : StorageModel) (from_ to_ : Nat)
    (headers : List BlockHeader)
    (hc : st.connection = .ok ()) (ht : st.transaction = .ok ())
    (hr : st.block_range from_ to_ = .ok headers) :
    catch_up st from_ to_ = .ok (headers.map fun h => (Message.mk h, h.number)) := by
  simp [catch_up, hc, ht, hr]

theorem catch_up_error_iff (st : StorageModel) (from_ to_ : Nat) :
    (∃ e, catch_up st from_ to_ = .error e) ↔
      (st.connection.isOk = false ∨ st.transaction.isOk = false ∨
        (st.block_range from_ to_).isOk = false) := by
  rcases hc : st.connection with e | u <;>
    rcases ht : st.transaction with e' | u' <;>
      rcases hr : st.block_range from_ to_ with e'' | hs <;>
        simp [catch_up, hc, ht, hr, Except.isOk, Except.toBool]

/-- Modelled from the spec: the Reconciliation Driver (§4.2) is not among the
source files, only its per-kind flow is.  Its catch-up phase forwards the
historical records of `[from, to]` (the tip at attach time), skipped when
`from > to`. -/
def catchUpSeqs (from_ to_ : Nat) : List Nat :=
  if from_ ≤ to_ then List.range' from_ (to_ + 1 - from_) else []

/-- Modelled from the spec: §4.2 step 4 — drain the bus, forwarding an event
only if its sequence number is strictly greater than the last sequence
number forwarded so far; anything else is discarded as a duplicate. -/
def liveFilter (last : Nat) : List Nat → List Nat
  | [] => []
  | sn :: rest => if last < sn then sn :: liveFilter sn rest else liveFilter last rest

/-- Modelled from the spec: the driver's merged outbound stream at the level
of sequence numbers — the catch-up records of `[from, to]` followed by the
deduplicated live phase over the bus trace.  After a non-empty catch-up the
dedup low-water mark is `to`; when `from > to` catch-up is skipped and the
mark starts at `from - 1` so that only events `≥ from` are wanted. -/
def driverSeqs (from_ to_ : Nat) (bus : List Nat) : List Nat :=
  catchUpSeqs from_ to_ ++ liveFilter (if from_ ≤ to_ then to_ else from_ - 1) bus

theorem liveFilter_range' (n : Nat) :
    ∀ (b last : Nat), b ≤ last + 1 →
      liveFilter last (List.range' b n) =
        List.range' (last + 1) (b + n - (last + 1)) := by
  induction n with
  | zero =>
    intro b last h
    simp only [List.range'_zero, liveFilter]
    have hz : b + 0 - (last + 1) = 0 := by omega
    rw [hz, List.range'_zero]
  | succ n ih =>
    intro b last h
    rw [List.range'_succ]
    by_cases hb : last < b
    · have hbe : b = last + 1 := by omega
      simp only [liveFilter, if_pos hb]
      rw [ih (b + 1) b (by omega)]
      have h1 : b + 1 + n - (b + 1) = n := by omega
      have h2 : b + (n + 1) - (last + 1) = n + 1 := by omega
      rw [h1, h2, hbe, ← List.range'_succ]
    · simp only [liveFilter, if_neg hb]
      rw [ih (b + 1) last (by omega)]
      have h1 : b + 1 + n - (last + 1) = b + (n + 1) - (last + 1) := by omega
      rw [h1]

theorem driverSeqs_race (from_ to_ b m : Nat)
    (hfrom : from_ ≤ to_ + 1) (hb : b ≤ to_ + 1) (hm : to_ ≤ m) :
    driverSeqs from_ to_ (List.range' b (m + 1 - b)) =
      List.range' from_ (m + 1 - from_) := by
  unfold driverSeqs catchUpSeqs
  by_cases hft : from_ ≤ to_
  · rw [if_pos hft, if_pos hft, liveFilter_range' (m + 1 - b) b to_ hb]
    have h1 : b + (m + 1 - b) - (to_ + 1) = m - to_ := by omega
    rw [h1]
    have happ := List.range'_append_1 from_ (to_ + 1 - from_) (m - to_)
    have h2 : from_ + (to_ + 1 - from_) = to_ + 1 := by omega
    rw [h2] at happ
    rw [happ]
    congr 1
    omega
  · rw [if_neg hft, if_neg hft]
    rw [liveFilter_range' (m + 1 - b) b (from_ - 1) (by omega)]
    simp only [List.nil_append]
    congr 1 <;> omega

theorem chain_succ_range' (n : Nat) :
    ∀ s : Nat, List.Chain' (fun a b => a + 1 = b) (List.range' s n) := by
  induction n with
  | zero => intro s; simp
  | succ n ih =>
    intro s
    rw [List.range'_succ]
    rw [List.chain'_cons']
    refine ⟨?_, ih (s + 1)⟩
    intro h hh
    rw [List.head?_range'] at hh
    by_cases hn : n = 0
    · rw [if_pos hn] at hh
      simp at hh
    · rw [if_neg hn] at hh
      simp at hh
      omega

/-- Modelled from the spec: §4.2 step 4 at the level of records — the live
phase forwards a bus header, paired with its number, only if that number is
strictly above the dedup low-water mark. -/
def liveFilterH (last : Nat) : List BlockHeader → List (Message × Nat)
  | [] => []
  | h :: rest =>
    if last < h.number then (Message.mk h, h.number) :: liveFilterH h.number rest
    else liveFilterH last rest

/-- Modelled from the spec: the driver run over records — §4.2 step 6, a
failed catch-up read terminates the driver, which then forwards nothing; on
success the catch-up records are forwarded and the deduplicated live phase
follows. -/
def driverRun (st : StorageModel) (from_ to_ : Nat) (bus : List BlockHeader) :
    List (Message × Nat) :=
  match catch_up st from_ to_ with
  | .error _ => []
  | .ok l => l ++ liveFilterH (if from_ ≤ to_ then to_ else from_ - 1) bus

/-- C1: a subscriber started at `from` over a gapless history whose tip at
attach time is `to`, with a bus trace that (per the attach-before-read
low-water mark) carries every event after `to` and possibly re-publishes
events from `b ≤ to + 1` onward, receives exactly the sequence numbers
`from, from+1, …, m` — each event `≥ from` exactly once, in strictly
increasing order: catch-up delivers `[from, to]`, the live phase delivers
everything after. -/
theorem C1_exact_delivery (from_ to_ b m : Nat)
    (hfrom : from_ ≤ to_ + 1) (hb : b ≤ to_ + 1) (hm : to_ ≤ m) :
    driverSeqs from_ to_ (List.range' b (m + 1 - b)) =
      List.range' from_ (m + 1 - from_) ∧
    List.Pairwise (· < ·) (driverSeqs from_ to_ (List.range' b (m + 1 - b))) ∧
    ∀ sn, sn ∈ driverSeqs from_ to_ (List.range' b (m + 1 - b)) ↔
      (from_ ≤ sn ∧ sn ≤ m) := by
  have heq := driverSeqs_race from_ to_ b m hfrom hb hm
  refine ⟨heq, ?_, ?_⟩
  · rw [heq]
    exact List.pairwise_lt_range' from_ (m + 1 - from_)
  · intro sn
    rw [heq, List.mem_range'_1]
    omega

/-- Witness for C1 at `from = 2`, `to = 4`, bus trace `3, 4, 5, 6, 7`. -/
theorem C1_exact_delivery_witness :
    driverSeqs 2 4 (List.range' 3 5) = List.range' 2 6 :=
  (C1_exact_delivery 2 4 3 7 (by decide) (by decide) (by decide)).1

/-- C2: under the insert-and-publish race — events up to the attach tip `to`
may be re-published on the bus (`b ≤ to + 1`) while the bus also carries
every later event — the dedup guard (forward only when strictly above the
last forwarded sequence number) leaves the merged outbound stream with no
repeated sequence number and no gap: it is nodup and consecutive. -/
theorem C2_no_duplicate_no_gap (from_ to_ b m : Nat)
    (hfrom : from_ ≤ to_ + 1) (hb : b ≤ to_ + 1) (hm : to_ ≤ m) :
    (driverSeqs from_ to_ (List.range' b (m + 1 - b))).Nodup ∧
    List.Chain' (fun a b => a + 1 = b)
      (driverSeqs from_ to_ (List.range' b (m + 1 - b))) := by
  have heq := driverSeqs_race from_ to_ b m hfrom hb hm
  rw [heq]
  exact ⟨List.nodup_range' from_ (m + 1 - from_), chain_succ_range' (m + 1 - from_) from_⟩

/-- Witness for C2 at `from = 0`, `to = 4`, bus trace `2, …, 9`. -/
theorem C2_no_duplicate_no_gap_witness :
    (driverSeqs 0 4 (List.range' 2 8)).Nodup :=
  (C2_no_duplicate_no_gap 0 4 2 9 (by decide) (by decide) (by decide)).1

/-- C3: when the History Source answers the range `[from, to]` with gapless
records (their numbers are exactly `from, …, to`), `catch_up` succeeds and
returns those records paired with their own sequence numbers, in strictly
increasing consecutive order. -/
theorem C3_catch_up_gapless (st : StorageModel) (from_ to_ : Nat)
    (headers : List BlockHeader)
    (hc : st.connection = .ok ()) (ht : st.transaction = .ok ())
    (hr : st.block_range from_ to_ = .ok headers)
    (hnum : headers.map BlockHeader.number = List.range' from_ (to_ + 1 - from_)) :
    ∃ l, catch_up st from_ to_ = .ok l ∧
      l.map Prod.snd = List.range' from_ (to_ + 1 - from_) ∧
      List.Pairwise (· < ·) (l.map Prod.snd) ∧
      List.Chain' (fun a b => a + 1 = b) (l.map Prod.snd) ∧
      l.map Prod.fst = headers.map Message.mk := by
  refine ⟨headers.map fun h => (Message.mk h, h.number),
    catch_up_ok st from_ to_ headers hc ht hr, ?_, ?_, ?_, ?_⟩
  · rw [List.map_map]
    exact hnum
  · rw [List.map_map]
    rw [show ((fun p : Message × Nat => p.2) ∘ fun h => (Message.mk h, h.number)) =
      BlockHeader.number from rfl, hnum]
    exact List.pairwise_lt_range' from_ (to_ + 1 - from_)
  · rw [List.map_map]
    rw [show ((fun p : Message × Nat => p.2) ∘ fun h => (Message.mk h, h.number)) =
      BlockHeader.number from rfl, hnum]
    exact chain_succ_range' (to_ + 1 - from_) from_
  · rw [List.map_map]
    rfl

/-- A sample gapless in-memory History Source: block `n` has number `n`. -/
def sampleHeader (n : Nat) : BlockHeader :=
  { hash := n, number := n, parent_hash := 0, timestamp := 0 }

/-- A storage model that always succeeds and is gapless on every range. -/
def stOk : StorageModel where
  connection := .ok ()
  transaction := .ok ()
  block_range := fun a b => .ok ((List.range' a (b + 1 - a)).map sampleHeader)

/-- A storage model whose connection fails. -/
def stFail : StorageModel where
  connection := .error "database is unavailable"
  transaction := .ok ()
  block_range := fun _ _ => .ok []

/-- Witness for C3 on the range `[2, 4]` of the sample storage. -/
theorem C3_catch_up_gapless_witness :
    ∃ l, catch_up stOk 2 4 = .ok l ∧
      l.map Prod.snd = List.range' 2 (4 + 1 - 2) ∧
      List.Pairwise (· < ·) (l.map Prod.snd) ∧
      List.Chain' (fun a b => a + 1 = b) (l.map Prod.snd) ∧
      l.map Prod.fst = ((List.range' 2 3).map sampleHeader).map Message.mk :=
  C3_catch_up_gapless stOk 2 4 ((List.range' 2 3).map sampleHeader)
    rfl rfl rfl (by rfl)

/-- C4: `catch_up` fails — with the `InternalError` that realises the spec's
`HistoryUnavailable` — exactly when storage access fails (opening the
connection, starting the transaction, or reading the range); such a failure
aborts the subscription, so the driver forwards nothing at all; and on
success `catch_up` returns `Ok` with the records. -/
theorem C4_history_unavailable (st : StorageModel) (from_ to_ : Nat) :
    ((∃ e, catch_up st from_ to_ = .error e) ↔
      (st.connection.isOk = false ∨ st.transaction.isOk = false ∨
        (st.block_range from_ to_).isOk = false)) ∧
    (∀ e, catch_up st from_ to_ = .error e →
      ∀ bus, driverRun st from_ to_ bus = []) ∧
    (∀ headers, st.connection = .ok () → st.transaction = .ok () →
      st.block_range from_ to_ = .ok headers →
      catch_up st from_ to_ = .ok (headers.map fun h => (Message.mk h, h.number))) := by
  refine ⟨catch_up_error_iff st from_ to_, ?_, ?_⟩
  · intro e he bus
    simp [driverRun, he]
  · intro headers hc ht hr
    exact catch_up_ok st from_ to_ headers hc ht hr

/-- Witness for C4: a failed connection makes `catch_up` error and the driver
forward nothing; the all-good storage returns its records. -/
theorem C4_history_unavailable_witness :
    driverRun stFail 0 3 [sampleHeader 9] = [] ∧
    catch_up stOk 0 0 = .ok ([sampleHeader 0].map fun h => (Message.mk h, h.number)) :=
  ⟨(C4_history_unavailable stFail 0 3).2.1
      (.InternalError "database is unavailable") rfl [sampleHeader 9],
    (C4_history_unavailable stOk 0 0).2.2 [sampleHeader 0] rfl rfl (by rfl)⟩

/-- C5: the live loop forwards every event received from the bus after
attach, in bus order, and stops exactly at the first receive error (e.g. the
subscriber lagged), the first failed outbound send (receiver gone — the
failed send delivers nothing), or the end of the receive trace
(cancellation); its output is precisely the successfully received run,
truncated to the sends the receiver accepted, with nothing after. -/
theorem C5_live_loop_forwards (recvs : List (Option BlockHeader)) (cap : Nat) :
    subscribe recvs cap =
      ((receivedOks recvs).take cap).map (fun h => (Message.mk h, h.number)) :=
  subscribe_eq_take_map recvs cap

/-- C9: every `(Notification, SequenceNumber)` pair produced by the new-heads
flow — by `catch_up` as well as by the live `subscribe` loop — pairs the
notification with the `number` field of the block header it wraps. -/
theorem C9_pair_is_header_number (st : StorageModel) (from_ to_ : Nat)
    (l : List (Message × Nat)) (hl : catch_up st from_ to_ = .ok l)
    (recvs : List (Option BlockHeader)) (cap : Nat) :
    (∀ p ∈ l, p.2 = p.1.header.number) ∧
    (∀ p ∈ subscribe recvs cap, p.2 = p.1.header.number) := by
  constructor
  · intro p hp
    unfold catch_up at hl
    rcases hc : st.connection with e | u <;> rw [hc] at hl
    · exact absurd hl (by simp)
    rcases ht : st.transaction with e | u <;> rw [ht] at hl
    · exact absurd hl (by simp)
    rcases hr : st.block_range from_ to_ with e | headers <;> rw [hr] at hl
    · exact absurd hl (by simp)
    have hl' : l = headers.map fun h => (Message.mk h, h.number) := by
      injection hl with h
      exact h.symm
    subst hl'
    rcases List.mem_map.mp hp with ⟨h, _, rfl⟩
    rfl
  · intro p hp
    rw [subscribe_eq_take_map] at hp
    rcases List.mem_map.mp hp with ⟨h, _, rfl⟩
    rfl

/-- Witness for C9 on the sample storage and a two-event receive trace. -/
theorem C9_pair_is_header_number_witness :
    (∀ p ∈ [(Message.mk (sampleHeader 0), 0)], p.2 = p.1.header.number) ∧
    (∀ p ∈ subscribe [some (sampleHeader 5), none] 7, p.2 = p.1.header.number) :=
  C9_pair_is_header_number stOk 0 0 [(Message.mk (sampleHeader 0), 0)]
    (by rfl) [some (sampleHeader 5), none] 7

/-- Modelled from the spec: the Connection Multiplexer's unsubscribe handling
(§4.3) over the Subscription Registry (§4.4), neither of which is among the
source files — the registry is the list of live subscription identifiers of
one connection, collision-free for the connection's lifetime; unsubscribe
looks the identifier up, cancels its driver and removes it, and acknowledges
with `true` iff it was found (never an error). -/
def unsubscribe (reg : List Nat) (id : Nat) : Bool × List Nat :=
  if id ∈ reg then (true, reg.erase id) else (false, reg)

/-- C6: unsubscribe acknowledges `true` exactly when the identifier is
registered and removes it; afterwards the identifier is gone — so no further
notification can be addressed to it — and a second unsubscribe of the same
identifier acknowledges `false` (and is not an error, merely the `false`
branch of the same total function). -/
theorem C6_unsubscribe_idempotent (reg : List Nat) (id : Nat)
    (hnd : reg.Nodup) :
    ((unsubscribe reg id).1 = true ↔ id ∈ reg) ∧
    id ∉ (unsubscribe reg id).2 ∧
    (unsubscribe (unsubscribe reg id).2 id).1 = false := by
  by_cases h : id ∈ reg
  · have herase : id ∉ reg.erase id := List.Nodup.not_mem_erase hnd
    refine ⟨by simp [unsubscribe, h], ?_, ?_⟩
    · simpa [unsubscribe, h] using herase
    · simp [unsubscribe, h, herase]
  · refine ⟨by simp [unsubscribe, h], ?_, ?_⟩
    · simp only [unsubscribe, if_neg h]
      exact h
    · simp [unsubscribe, h]

/-- Witness for C6 on the registry `[1, 2, 3]` and identifier `2`. -/
theorem C6_unsubscribe_idempotent_witness :
    ((unsubscribe [1, 2, 3] 2).1 = true ↔ 2 ∈ [1, 2, 3]) ∧
    2 ∉ (unsubscribe [1, 2, 3] 2).2 ∧
    (unsubscribe (unsubscribe [1, 2, 3] 2).2 2).1 = false :=
  C6_unsubscribe_idempotent [1, 2, 3] 2 (by decide)

/-- A minimal JSON value model for frame and serializer shapes. -/
inductive JVal where
  | str (s : String)
  | num (n : Nat)
  | arr (elems : List JVal)
  | obj (fields : List (String × JVal))

/-- First value bound to `key` in an ordered JSON object's field list. -/
def findField (fields : List (String × JVal)) (key : String) : Option JVal :=
  match fields with
  | [] => none
  | (k, v) :: rest => if k = key then some v else findField rest key

/-- Modelled from the spec: the Connection Multiplexer's outbound
notification frame (§6) — `{method, params: {result, subscription_id}}` with
no `id`; the method name is `subscription_name` from the source, and the
tests (`sample_new_heads_message`) fix the `jsonrpc` member and the layout
of `params`. -/
def notificationFrame (subId : Nat) (payload : JVal) : List (String × JVal) :=
  [("jsonrpc", JVal.str "2.0"),
   ("method", JVal.str subscription_name),
   ("params", JVal.obj [("result", payload), ("subscription_id", JVal.num subId)])]

/-- C7: every outbound new-heads notification frame has method
`starknet_subscriptionNewHeads`, params holding exactly the serialized
payload under `result` together with the `subscription_id`, and no `id`
member. -/
theorem C7_notification_frame_shape (subId : Nat) (payload : JVal) :
    findField (notificationFrame subId payload) "method" =
      some (JVal.str "starknet_subscriptionNewHeads") ∧
    findField (notificationFrame subId payload) "params" =
      some (JVal.obj [("result", payload), ("subscription_id", JVal.num subId)]) ∧
    findField (notificationFrame subId payload) "id" = none := by
  refine ⟨?_, ?_, ?_⟩ <;> simp [notificationFrame, findField, subscription_name]

/-- A block identifier as deserialized into `Input.block_id`. -/
inductive BlockId where
  | Pending
  | Latest
  | Number (n : Nat)
  | Hash (h : Nat)
  deriving DecidableEq

namespace GetBlockWithTxHashes

/-- A transaction of the pending block; only its `hash` is used. -/
structure PendingTxn where
  hash : Nat
  deriving DecidableEq

/-- `starknet_gateway_types::reply::PendingBlock`, reduced to the
transaction list the method reads. -/
structure PendingBlock where
  transactions : List PendingTxn
  deriving DecidableEq

/-- The value returned by `context.pending_data.get(&transaction)`. -/
structure PendingData where
  block : PendingBlock
  deriving DecidableEq

/-- The error subset generated for this method:
`generate_rpc_error_subset!(Error: BlockNotFound)`, plus the internal
variant that every `anyhow` context failure maps into. -/
inductive Error where
  | BlockNotFound
  | Internal (msg : String)
  deriving DecidableEq

/-- `Output` of `get_block_with_tx_hashes`: a pending view, or a full block
with its transaction hashes and L1-acceptance flag. -/
inductive Output where
  | Pending (header : PendingBlock) (transactions : List Nat)
  | Full (header : BlockHeader) (transactions : List Nat) (l1_accepted : Bool)
  deriving DecidableEq

/-- The context as the method uses it: connection and transaction opening,
the pending-data watcher, and the three storage reads. -/
structure Context where
  connection : Except String Unit
  transaction : Except String Unit
  pending_get : Except String PendingData
  block_header : BlockId → Option BlockHeader
  block_is_l1_accepted : Nat → Except String Bool
  transaction_hashes_for_block : Nat → Except String (Option (List Nat))

/-- `get_block_with_tx_hashes`: opens the connection and transaction; for a
`Pending` id reads the pending data and returns its transactions' hashes in
order; otherwise looks the header up (absence is `BlockNotFound`), reads the
L1-acceptance flag and the transaction hashes (whose absence is an internal
error, not `BlockNotFound`), and returns the full output. -/
def get_block_with_tx_hashes (ctx : Context) (block_id : BlockId) :
    Except Error Output :=
  match ctx.connection with
  | .error e => .error (.Internal e)
  | .ok _ =>
    match ctx.transaction with
    | .error e => .error (.Internal e)
    | .ok _ =>
      match block_id with
      | .Pending =>
        match ctx.pending_get with
        | .error e => .error (.Internal e)
        | .ok pending =>
          .ok (.Pending pending.block (pending.block.transactions.map PendingTxn.hash))
      | other =>
        match ctx.block_header other with
        | none => .error .BlockNotFound
        | some header =>
          match ctx.block_is_l1_accepted header.number with
          | .error e => .error (.Internal e)
          | .ok l1_accepted =>
            match ctx.transaction_hashes_for_block header.number with
            | .error e => .error (.Internal e)
            | .ok none => .error (.Internal "Transaction hashes missing")
            | .ok (some transactions) => .ok (.Full header transactions l1_accepted)

end GetBlockWithTxHashes

/-- C8: with storage reachable, `get_block_with_tx_hashes` returns
`BlockNotFound` exactly when the block id is not `Pending` and no header
exists for it; a `Pending` id never yields `BlockNotFound` and, when the
pending data is readable, yields `Output::Pending` whose transaction list is
exactly the pending block's transaction hashes in their original order. -/
theorem C8_block_not_found_iff (ctx : GetBlockWithTxHashes.Context)
    (block_id : BlockId)
    (hc : ctx.connection = .ok ()) (ht : ctx.transaction = .ok ()) :
    (GetBlockWithTxHashes.get_block_with_tx_hashes ctx block_id =
        .error .BlockNotFound ↔
      (block_id ≠ .Pending ∧ ctx.block_header block_id = none)) ∧
    (∀ p, block_id = .Pending → ctx.pending_get = .ok p →
      GetBlockWithTxHashes.get_block_with_tx_hashes ctx block_id =
        .ok (.Pending p.block (p.block.transactions.map
          GetBlockWithTxHashes.PendingTxn.hash))) := by
  unfold GetBlockWithTxHashes.get_block_with_tx_hashes
  rw [hc, ht]
  constructor
  · cases block_id with
    | Pending =>
      rcases hp : ctx.pending_get with e | p <;> simp
    | Latest =>
      rcases hh : ctx.block_header .Latest with _ | header
      · simp [hh]
      · rcases hl : ctx.block_is_l1_accepted header.number with e | l1
        · simp [hh, hl]
        · rcases htx : ctx.transaction_hashes_for_block header.number with e | o
          · simp [hh, hl, htx]
          · cases o <;> simp [hh, hl, htx]
    | Number n =>
      rcases hh : ctx.block_header (.Number n) with _ | header
      · simp [hh]
      · rcases hl : ctx.block_is_l1_accepted header.number with e | l1
        · simp [hh, hl]
        · rcases htx : ctx.transaction_hashes_for_block header.number with e | o
          · simp [hh, hl, htx]
          · cases o <;> simp [hh, hl, htx]
    | Hash h =>
      rcases hh : ctx.block_header (.Hash h) with _ | header
      · simp [hh]
      · rcases hl : ctx.block_is_l1_accepted header.number with e | l1
        · simp [hh, hl]
        · rcases htx : ctx.transaction_hashes_for_block header.number with e | o
          · simp [hh, hl, htx]
          · cases o <;> simp [hh, hl, htx]
  · intro p hpend hp
    subst hpend
    rw [hp]

/-- A sample context for the block query: no stored blocks, a two-transaction
pending block, all storage steps succeeding. -/
def gbCtx : GetBlockWithTxHashes.Context where
  connection := .ok ()
  transaction := .ok ()
  pending_get := .ok { block := { transactions := [{ hash := 7 }, { hash := 9 }] } }
  block_header := fun _ => none
  block_is_l1_accepted := fun _ => .ok true
  transaction_hashes_for_block := fun _ => .ok (some [])

/-- Witness for C8: on an empty store, `latest` is `BlockNotFound` while
`pending` returns the pending block's transaction hashes in order. -/
theorem C8_block_not_found_iff_witness :
    GetBlockWithTxHashes.get_block_with_tx_hashes gbCtx .Latest =
      .error .BlockNotFound ∧
    GetBlockWithTxHashes.get_block_with_tx_hashes gbCtx .Pending =
      .ok (.Pending { transactions := [{ hash := 7 }, { hash := 9 }] } [7, 9]) :=
  ⟨(C8_block_not_found_iff gbCtx .Latest rfl rfl).1.mpr ⟨by simp, rfl⟩,
    (C8_block_not_found_iff gbCtx .Pending rfl rfl).2
      { block := { transactions := [{ hash := 7 }, { hash := 9 }] } } rfl rfl⟩

/-- The serializer of `Output` (`SerializeForVersion for Output`): the block
header is flattened first (its own serializer lives outside these sources,
so its field list is a parameter), then `transactions` is emitted, and for
`Output::Full` a final `status` field whose value depends on `l1_accepted`;
`Output::Pending` emits no such field. -/
def serializeOutput
    (headerFields : BlockHeader → List (String × JVal))
    (pendingHeaderFields : GetBlockWithTxHashes.PendingBlock → List (String × JVal)) :
    GetBlockWithTxHashes.Output → List (String × JVal)
  | .Pending header transactions =>
    pendingHeaderFields header ++
      [("transactions", JVal.arr (transactions.map JVal.num))]
  | .Full header transactions l1_accepted =>
    headerFields header ++
      [("transactions", JVal.arr (transactions.map JVal.num)),
       ("status", JVal.str (if l1_accepted then "ACCEPTED_ON_L1" else "ACCEPTED_ON_L2"))]

theorem findField_append_of_not_mem (l₁ l₂ : List (String × JVal)) (key : String)
    (h : key ∉ l₁.map Prod.fst) :
    findField (l₁ ++ l₂) key = findField l₂ key := by
  induction l₁ with
  | nil => rfl
  | cons kv rest ih =>
    obtain ⟨k, v⟩ := kv
    simp only [List.map_cons, List.mem_cons, not_or] at h
    have hk : ¬(k = key) := fun he => h.1 he.symm
    simp only [List.cons_append, findField, if_neg hk]
    exact ih h.2

/-- C10: serializing `Output::Full` produces a `status` field equal to
`ACCEPTED_ON_L1` when `l1_accepted` is set and `ACCEPTED_ON_L2` otherwise,
while serializing `Output::Pending` produces no `status` field — given that
the flattened header field lists themselves carry no `status` key. -/
theorem C10_status_field
    (headerFields : BlockHeader → List (String × JVal))
    (pendingHeaderFields : GetBlockWithTxHashes.PendingBlock → List (String × JVal))
    (h : BlockHeader) (p : GetBlockWithTxHashes.PendingBlock)
    (txs ptxs : List Nat) (l1_accepted : Bool)
    (hh : "status" ∉ (headerFields h).map Prod.fst)
    (hp : "status" ∉ (pendingHeaderFields p).map Prod.fst) :
    findField (serializeOutput headerFields pendingHeaderFields
        (.Full h txs l1_accepted)) "status" =
      some (JVal.str (if l1_accepted then "ACCEPTED_ON_L1" else "ACCEPTED_ON_L2")) ∧
    findField (serializeOutput headerFields pendingHeaderFields
        (.Pending p ptxs)) "status" = none := by
  constructor
  · rw [serializeOutput, findField_append_of_not_mem _ _ _ hh]
    simp [findField]
  · rw [serializeOutput, findField_append_of_not_mem _ _ _ hp]
    simp [findField]

/-- A sample header field list: what `dto::BlockHeader` flattening shows in
the tests, reduced to two fields. -/
def sampleHeaderFields (h : BlockHeader) : List (String × JVal) :=
  [("block_hash", JVal.num h.hash), ("block_number", JVal.num h.number)]

/-- A sample pending-header field list. -/
def samplePendingFields (_ : GetBlockWithTxHashes.PendingBlock) :
    List (String × JVal) :=
  [("parent_hash", JVal.num 0)]

/-- Witness for C10 on the sample field lists. -/
theorem C10_status_field_witness :
    findField (serializeOutput sampleHeaderFields samplePendingFields
        (.Full (sampleHeader 3) [1, 2] true)) "status" =
      some (JVal.str (if true then "ACCEPTED_ON_L1" else "ACCEPTED_ON_L2")) ∧
    findField (serializeOutput sampleHeaderFields samplePendingFields
        (.Pending { transactions := [] } [])) "status" = none :=
  C10_status_field sampleHeaderFields samplePendingFields (sampleHeader 3)
    { transactions := [] } [1, 2] [] true
    (by simp [sampleHeaderFields]) (by simp [samplePendingFields])

end Pathfinder
